import Mathlib

/-!
Shallow embedding of the Sir Trevor `Editor` orchestration layer
(`src/editor.js`) for verification of the specification's claims.

The editor's collaborators (block manager, editor store, error handler,
event bus) are not part of the source under verification; where their
behavior decides a claim, the corresponding definition carries a doc
comment beginning `Modelled from the spec:` and follows the interface
contracts of the specification (sections 5 and 6).
-/

set_option autoImplicit false

namespace SirTrevor

/-- A `{type, data}` record as produced by a block's `getData()` and held by
the editor store. The `data` payload is kept abstract as its serialized
string form. -/
structure BlockData where
  type : String
  data : String
deriving DecidableEq, Repr

/-- A block instance as the orchestrator sees it (interface contract of
spec section 6): a stable `blockID`, a type name, the result of its
validity predicate `valid()`, its `validationFailMsg`, the data payload
its `getData()` extracts, and the resolve times of the deferreds of its
queued (in-flight asynchronous) items. -/
structure Block where
  blockID : String
  btype : String
  valid : Bool
  validationFailMsg : String
  payload : String
deriving DecidableEq, Repr

/-- The `{type, data}` record `block.getData()` returns. -/
def Block.getData (b : Block) : BlockData :=
  ⟨b.btype, b.payload⟩

/-- A DOM element node inside the wrapper: `nodeId` models JavaScript
object identity (`===`); `attrId` models `getAttribute("id")`. -/
structure DomNode where
  nodeId : Nat
  attrId : String
deriving DecidableEq, Repr

/-- Mediator events observable during a validation pass. -/
inductive MEvent where
  | errorsReset
  | errorsAdd (text : String)
  | errorsRender
deriving DecidableEq, Repr

/-- State threaded through a validation pass: the error handler's
accumulated records, the store's entries, and the log of mediator events
emitted during the current call. The error handler and store behaviors
(`errors:add` appends a record, `errors:reset` clears, `addData` appends,
`reset` clears) are modelled from the spec: the error handler and editor
store live outside `src/` and are specified by their contracts in
section 6. -/
structure PassState where
  errors : List String
  store : List BlockData
  log : List MEvent
deriving DecidableEq, Repr

/-- Global configuration relevant to the pipeline: the `skipValidation`
toggle of `config`. -/
structure Config where
  skipValidation : Bool
deriving DecidableEq, Repr

/-- A JavaScript argument value, as far as `getData`'s coercion
`(shouldValidate === false) ? false : true` can distinguish it. -/
inductive JsArg where
  | undef
  | null
  | bool (b : Bool)
  | other
deriving DecidableEq, Repr

/-- The coercion at the top of `getData`: anything other than the exact
value `false` is treated as `true`. -/
def JsArg.toValidate : JsArg → Bool
  | .bool false => false
  | _ => true

/-- Per-block queued-item resolve times. Modelled from the spec: a queued
item represents in-flight async work and carries a deferred; we record
each deferred by the instant at which it resolves. The block manager's
`getQueuedItems` (outside `src/`) exposes the queued items of all blocks. -/
structure QueuedState where
  itemTimes : List (List Nat)
deriving DecidableEq, Repr

/-- A full editor instance as the pipeline sees it: configuration, the
registered block-type catalogue, the registry's block collection, the
wrapper's `.st-block` DOM children in visual order, queued-item state,
and the error/store state left over from a prior pass. -/
structure Editor where
  cfg : Config
  availableTypes : List String
  registry : List Block
  dom : List DomNode
  queued : QueuedState
  state : PassState
deriving DecidableEq, Repr

/-- Function `findBlockById` delegated to the block manager: first block in the
registry whose `blockID` equals the given id. -/
def findBlockById (registry : List Block) (id : String) : Option Block :=
  registry.find? (fun b => b.blockID == id)

/-- Functions `getBlockQueuedItems` and the block manager's `getQueuedItems`:
the queued items of every block, flattened. Modelled from the spec:
the registry exposes the list of blocks with unresolved async work. -/
def getBlockQueuedItems (e : Editor) : List Nat :=
  e.queued.itemTimes.flatten

/-- Operation `validateAndSaveBlock(block, shouldValidate)`: unless validation is
globally skipped and not forced, run the block's validity check; on
failure emit `errors:add` with the block's `validationFailMsg` and leave
the store untouched; otherwise append `block.getData()` to the store. -/
def validateAndSaveBlock (cfg : Config) (st : PassState) (b : Block)
    (shouldValidate : Bool) : PassState :=
  if (!cfg.skipValidation || shouldValidate) && !b.valid then
    { st with
      errors := st.errors ++ [b.validationFailMsg]
      log := st.log ++ [.errorsAdd b.validationFailMsg] }
  else
    { st with store := st.store ++ [b.getData] }

/-- Operation `validateBlocks(shouldValidate)`: walk the wrapper's `.st-block`
elements in DOM order, resolve each element's `id` attribute through the
registry, and validate-and-save each resolved block; an element whose id
resolves to no block is skipped. -/
def validateBlocks (cfg : Config) (registry : List Block)
    (dom : List DomNode) (shouldValidate : Bool) (st : PassState) : PassState :=
  dom.foldl
    (fun s n =>
      match findBlockById registry n.attrId with
      | some b => validateAndSaveBlock cfg s b shouldValidate
      | none => s)
    st

/-- Error text recorded for a block whose type is not registered. -/
def typeMissingMsg (t : String) : String :=
  "Block type " ++ t ++ " is not registered"

/-- Modelled from the spec: the block manager's
`validateBlockTypesExist(shouldValidate)` (block-manager is outside
`src/`) flags, when validating, each block whose type is no longer in the
registered block-type catalogue, as a validation-pass condition recorded
through the error handler. -/
def validateBlockTypesExist (availableTypes : List String)
    (registry : List Block) (shouldValidate : Bool) (st : PassState) : PassState :=
  if shouldValidate then
    registry.foldl
      (fun s b =>
        if availableTypes.contains b.btype then s
        else
          { s with
            errors := s.errors ++ [typeMissingMsg b.btype]
            log := s.log ++ [.errorsAdd (typeMissingMsg b.btype)] })
      st
  else st

/-- Modelled from the spec: the editor store's `toString()` (editor-store
is outside `src/`) serializes the ordered entries to a single JSON-style
string, one `\x7btype, data\x7d` record per entry. -/
def storeToString (entries : List BlockData) : String :=
  "[" ++
    String.intercalate ","
      (entries.map (fun e =>
        "\x7b\"type\":\"" ++ e.type ++ "\",\"data\":" ++ e.data ++ "\x7d")) ++
  "]"

/-- The `{data, errors, canSubmit}` result of `getData`. -/
structure GetDataResult where
  data : String
  errors : Nat
  canSubmit : Bool
deriving DecidableEq, Repr

/-- Operation `getData(shouldValidate)`: coerce the argument (true unless exactly
`false`), emit `errors:reset` (clearing the error handler), reset the
store, validate all blocks in DOM order, run the registry's
block-type-existence check, emit `errors:render`, and return the
serialized store, the error count, and
`canSubmit = !(errors.length || queuedItems.length)`. Returns the result
together with the pass state at the end of the call (its log holds the
mediator events emitted during this call). -/
def getData (e : Editor) (arg : JsArg) : GetDataResult × PassState :=
  let shouldValidate := arg.toValidate
  let st0 : PassState := { errors := [], store := [], log := [.errorsReset] }
  let st1 := validateBlocks e.cfg e.registry e.dom shouldValidate st0
  let st2 := validateBlockTypesExist e.availableTypes e.registry shouldValidate st1
  let st3 := { st2 with log := st2.log ++ [.errorsRender] }
  (⟨storeToString st3.store,
    st3.errors.length,
    st3.errors.length == 0 && (getBlockQueuedItems e).length == 0⟩,
   st3)

/-- Operation `process(shouldValidate)`: `Promise.all` over the deferreds of the
currently queued items, then `getData`. Timing model of the
single-threaded event loop: each deferred resolves at its recorded
instant; `Promise.all`'s continuation runs on a later microtask, strictly
after the last input resolves (`max + 1`); `stateAt` gives the editor
state at each instant, and `getData` runs on the state at the resolution
instant. Returns the resolution instant and the resolved value. -/
def process (e : Editor) (arg : JsArg) (stateAt : Nat → Editor) :
    Nat × GetDataResult :=
  let t := (getBlockQueuedItems e).foldl max 0 + 1
  (t, (getData (stateAt t) arg).1)

/-- The `options.defaultType` configuration value: either the exact value
`false` (default-block creation disabled) or a block type name. -/
inductive DefaultTypeOpt where
  | disabled
  | typ (t : String)
deriving DecidableEq, Repr

/-- A `block:create` mediator event with its type and data arguments. -/
inductive CreateEvent where
  | blockCreate (type : String) (data : String)
deriving DecidableEq, Repr

/-- Serialized form of the empty-object data passed for a default block. -/
def emptyData : String := "\x7b\x7d"

/-- Operation `createBlocks()`: read the store snapshot; if it has entries,
emit one `block:create` per entry in stored order with its type and data;
otherwise, if `options.defaultType !== false`, emit a single
`block:create` with the default type and empty data. Returns exactly the
emitted `block:create` events in order. -/
def createBlocks (storeData : List BlockData)
    (defaultType : DefaultTypeOpt) : List CreateEvent :=
  if storeData.length > 0 then
    storeData.map (fun b => .blockCreate b.type b.data)
  else
    match defaultType with
    | .disabled => []
    | .typ t => [.blockCreate t emptyData]

/-- A teardown step performed by `destroy()`. -/
inductive TStep where
  | formatBarDestroy
  | flBlockControlsDestroy
  | blockControlsDestroy
  | blockRemove (id : String)
  | destroyEvent
  | mediatorStopListening
  | instanceStopListening
  | storeReset
  | replaceWith
deriving DecidableEq, Repr

/-- Modelled from the spec: the block manager's `block:remove` handler
(block-manager is outside `src/`) removes the block with the given id from
its collection; the removal replaces the collection with a filtered one, so
an in-progress `forEach` over the previously captured array is unaffected
(this is why the spec describes the iteration as being over a snapshot). -/
def removeBlockById (blocks : List Block) (id : String) : List Block :=
  blocks.filter (fun b => b.blockID != id)

/-- The block-removal loop of `destroy()`: `forEach` over the value of
`this.block_manager.blocks` captured at the call, each iteration emitting
`block:remove` for that block's id, whose handler updates the manager's
current collection. Returns the manager's final collection and the
emitted steps in order. -/
def destroyBlocksLoop (snapshot : List Block) (current : List Block) :
    List Block × List TStep :=
  snapshot.foldl
    (fun acc b =>
      (removeBlockById acc.1 b.blockID, acc.2 ++ [TStep.blockRemove b.blockID]))
    (current, [])

/-- Operation `destroy()`: the teardown steps in the order the source
performs them — format bar, floating block controls, block controls, the
block-removal loop over the registry collection captured at the call,
the `destroy` event, `mediator.stopListening()`, `this.stopListening()`,
`store.reset()`, and `Dom.replaceWith(outer, el)`. -/
def destroy (registry : List Block) : List TStep :=
  [.formatBarDestroy, .flBlockControlsDestroy, .blockControlsDestroy]
    ++ (destroyBlocksLoop registry registry).2
    ++ [.destroyEvent, .mediatorStopListening, .instanceStopListening,
        .storeReset, .replaceWith]

/-- Operation `getBlockPosition(block)`: `forEach` over the wrapper's
`.st-block` nodes, recording the index of every node identical (`===`) to
the given one; the last assignment wins, and the result is `undefined`
(here `none`) when no node matches. -/
def getBlockPosition (dom : List DomNode) (blk : DomNode) : Option Nat :=
  dom.enum.foldl
    (fun acc p => if p.2.nodeId == blk.nodeId then some p.1 else acc)
    none

/-- Moving a node detaches it from its current position in the parent. -/
def removeNode (dom : List DomNode) (blk : DomNode) : List DomNode :=
  dom.filter (fun n => n.nodeId != blk.nodeId)

/-- DOM `parentNode.insertBefore(blk, target)` inside the wrapper:
`blk` is detached and re-inserted immediately before `target`. -/
def insertBeforeNode (dom : List DomNode) (blk target : DomNode) : List DomNode :=
  ((removeNode dom blk).map
    (fun n => if n.nodeId == target.nodeId then [blk, n] else [n])).flatten

/-- Helper `Dom.insertAfter(blk, target)`: `blk` is detached and
re-inserted immediately after `target`. -/
def insertAfterNode (dom : List DomNode) (blk target : DomNode) : List DomNode :=
  ((removeNode dom blk).map
    (fun n => if n.nodeId == target.nodeId then [n, blk] else [n])).flatten

/-- JavaScript comparison `blockPosition > selectedPosition` where
`blockPosition` may be `undefined`: any comparison with `undefined` is
false. -/
def optIndexGt : Option Nat → Int → Bool
  | some bp, sp => bp > sp
  | none, _ => false

/-- Operation `changeBlockPosition(block, selectedPosition)`: decrement the
1-indexed target position, look up the node occupying the target slot; if
it exists and its id attribute differs from the block's, insert the block
before it when the block's current index exceeds the target index and
after it otherwise; in every other case the DOM is untouched. -/
def changeBlockPosition (dom : List DomNode) (blk : DomNode)
    (selectedPosition : Int) : List DomNode :=
  let sp := selectedPosition - 1
  let blockPosition := getBlockPosition dom blk
  let blockBy := if sp < 0 then none else dom.get? sp.toNat
  match blockBy with
  | none => dom
  | some target =>
    if target.attrId == blk.attrId then dom
    else if optIndexGt blockPosition sp then insertBeforeNode dom blk target
    else insertAfterNode dom blk target

/-- Operation `changeBlockPosition` lifted to the whole editor instance: it
manipulates only the wrapper's DOM children; every other component,
including the registry's block collection, is untouched. -/
def changeBlockPositionE (e : Editor) (blk : DomNode)
    (selectedPosition : Int) : Editor :=
  { e with dom := changeBlockPosition e.dom blk selectedPosition }

/-- A subscribed handler: the editor instance that owns it and the bound
method name. -/
structure Handler where
  owner : Nat
  method : String
deriving DecidableEq, Repr

/-- A subscription on a pub/sub channel: event name paired with handler. -/
abbrev Subscription := String × Handler

/-- The `events` map of the editor prototype: three drag/reorder events,
each bound to `removeBlockDragOver`. -/
def editorBusEvents : List (String × String) :=
  [("block:reorder:dragend", "removeBlockDragOver"),
   ("block:reorder:dropped", "removeBlockDragOver"),
   ("block:content:dropped", "removeBlockDragOver")]

/-- Operation `_setEvents()`: subscribes this instance's bound handler for
each entry of the `events` map on the `EventBus`. Modelled from the spec:
the event bus (outside `src/`) is a process-wide channel (spec section 9,
"shared process-wide"), so subscriptions of every live instance accumulate
on the one bus. -/
def setEvents (instanceId : Nat) (bus : List Subscription) : List Subscription :=
  bus ++ editorBusEvents.map (fun p => (p.1, ⟨instanceId, p.2⟩))

/-- The mediator subscriptions `build()` installs on this instance's fresh
mediator (created per instance in `initialize`). -/
def buildMediatorSubs (instanceId : Nat) : List Subscription :=
  [("block:changePosition", ⟨instanceId, "changeBlockPosition"⟩),
   ("block-controls:reset", ⟨instanceId, "resetBlockControls"⟩),
   ("block:limitReached", ⟨instanceId, "blockLimitReached"⟩),
   ("block:render", ⟨instanceId, "renderBlock"⟩)]

/-- Triggering an event on a pub/sub channel delivers it to every handler
subscribed under that name, in subscription order, regardless of which
instance's component published it. -/
def deliver (subs : List Subscription) (ev : String) : List Handler :=
  (subs.filter (fun l => l.1 == ev)).map (fun l => l.2)

/-- Reference specification of the serialized sequence: the records of the
wrapper's `.st-block` nodes in DOM order, keeping exactly the resolved
blocks that pass (or skip) validation. -/
def domOrderRecords (cfg : Config) (registry : List Block)
    (shouldValidate : Bool) (dom : List DomNode) : List BlockData :=
  dom.filterMap (fun n =>
    (findBlockById registry n.attrId).bind (fun b =>
      if (!cfg.skipValidation || shouldValidate) && !b.valid then none
      else some b.getData))

/-! Concrete fixtures for witnesses and counterexamples. -/

/-- An invalid image block. -/
def bInvalid : Block := ⟨"b2", "image", false, "image invalid", "\x7b\x7d"⟩

/-- A valid text block. -/
def bValid : Block := ⟨"b1", "text", true, "", "\x7b\"text\":\"hi\"\x7d"⟩

/-- An editor with `skipValidation` off and one invalid block. -/
def eInvalidOne : Editor :=
  { cfg := ⟨false⟩
    availableTypes := ["text", "image"]
    registry := [bInvalid]
    dom := [⟨0, "b2"⟩]
    queued := ⟨[]⟩
    state := ⟨[], [], []⟩ }

/-- An editor with `skipValidation` on and one invalid block. -/
def eSkipOne : Editor :=
  { cfg := ⟨true⟩
    availableTypes := ["text", "image"]
    registry := [bInvalid]
    dom := [⟨0, "b2"⟩]
    queued := ⟨[]⟩
    state := ⟨[], [], []⟩ }

/-- An editor with one valid and one invalid block. -/
def eTwoBlocks : Editor :=
  { cfg := ⟨false⟩
    availableTypes := ["text", "image"]
    registry := [bValid, bInvalid]
    dom := [⟨0, "b1"⟩, ⟨1, "b2"⟩]
    queued := ⟨[]⟩
    state := ⟨[], [], []⟩ }

/-- An error-free editor with one outstanding queued item. -/
def eQueuedOne : Editor :=
  { cfg := ⟨false⟩
    availableTypes := ["text"]
    registry := [bValid]
    dom := [⟨0, "b1"⟩]
    queued := ⟨[[3, 5]]⟩
    state := ⟨[], [], []⟩ }

/-- The process-wide event bus after two editors have run `_setEvents`. -/
def twoEditorBus : List Subscription := setEvents 2 (setEvents 1 [])

/-- An editor whose wrapper holds three block nodes. -/
def eThreeNodes : Editor :=
  { cfg := ⟨false⟩
    availableTypes := ["text"]
    registry := []
    dom := [⟨0, "a"⟩, ⟨1, "b"⟩, ⟨2, "c"⟩]
    queued := ⟨[]⟩
    state := ⟨[], [], []⟩ }

/-! Shared helper lemmas. -/

theorem le_foldl_max (l : List Nat) (a : Nat) : a ≤ l.foldl max a := by
  induction l generalizing a with
  | nil => exact Nat.le_refl a
  | cons x xs ih => exact Nat.le_trans (Nat.le_max_left a x) (ih (max a x))

theorem mem_le_foldl_max (l : List Nat) (a x : Nat) (hx : x ∈ l) :
    x ≤ l.foldl max a := by
  induction l generalizing a with
  | nil => cases hx
  | cons y ys ih =>
    rcases List.mem_cons.mp hx with h | h
    · subst h
      exact Nat.le_trans (Nat.le_max_right a x) (le_foldl_max ys (max a x))
    · exact ih (max a y) h

theorem toValidate_of_ne_false (arg : JsArg) (h : arg ≠ JsArg.bool false) :
    arg.toValidate = true := by
  cases arg with
  | bool b => cases b with
    | false => exact absurd rfl h
    | true => rfl
  | undef => rfl
  | null => rfl
  | other => rfl

/-- C2: `getData(v)` treats the argument as true unless it is exactly
`false`, and returns `{data, errors, canSubmit}` where `data` is the
store's serialization, `errors` the error handler's count, and
`canSubmit` is true iff the error count and the outstanding queued-item
count are both zero; in particular any outstanding queued item forces
`canSubmit = false`. -/
theorem C2_getData_shape (e : Editor) (arg : JsArg) :
    (arg ≠ JsArg.bool false → getData e arg = getData e (JsArg.bool true)) ∧
    (getData e arg).1.data = storeToString (getData e arg).2.store ∧
    (getData e arg).1.errors = (getData e arg).2.errors.length ∧
    ((getData e arg).1.canSubmit = true ↔
      ((getData e arg).1.errors = 0 ∧ (getBlockQueuedItems e).length = 0)) ∧
    ((getBlockQueuedItems e).length ≠ 0 →
      (getData e arg).1.canSubmit = false) := by
  refine ⟨?_, rfl, rfl, ?_, ?_⟩
  · intro h
    unfold getData
    rw [toValidate_of_ne_false arg h]
    rfl
  · simp [getData, Bool.and_eq_true, beq_iff_eq]
  · intro hq
    have h2 : ((getBlockQueuedItems e).length == 0) = false := by
      rcases hbe : ((getBlockQueuedItems e).length == 0) with _ | _
      · rfl
      · exact absurd (beq_iff_eq.mp hbe) hq
    simp [getData, h2]

/-- C2 witness: at a concrete editor with one block and an outstanding
queued item, `canSubmit` is false. -/
theorem C2_getData_shape_witness :
    (getData eQueuedOne JsArg.undef).1.canSubmit = false :=
  (C2_getData_shape eQueuedOne JsArg.undef).2.2.2.2 (by decide)

/-- C3: in the event-loop timing model, `process(v)` resolves strictly
after every deferred of the queued items outstanding at the call, and
resolves to the value of `getData(v)` computed on the editor state at the
resolution instant. -/
theorem C3_process_resolves_after (e : Editor) (arg : JsArg)
    (stateAt : Nat → Editor) :
    (∀ d ∈ getBlockQueuedItems e, d < (process e arg stateAt).1) ∧
    (process e arg stateAt).2 =
      (getData (stateAt (process e arg stateAt).1) arg).1 := by
  constructor
  · intro d hd
    exact Nat.lt_succ_of_le (mem_le_foldl_max _ 0 d hd)
  · rfl

/-- C3 witness: at a concrete editor with queued deferreds resolving at
instants 3 and 5, `process` resolves after instant 5. -/
theorem C3_process_resolves_after_witness :
    5 < (process eQueuedOne JsArg.undef (fun _ => eQueuedOne)).1 :=
  (C3_process_resolves_after eQueuedOne JsArg.undef (fun _ => eQueuedOne)).1
    5 (by decide)

/-- C8: `createBlocks` emits one `block:create` per persisted store entry
in stored order when the store is non-empty; with an empty store it emits
exactly one default-typed `block:create` with empty data when a default
type is configured, and nothing when the default type is the value
`false`. -/
theorem C8_createBlocks_events (storeData : List BlockData)
    (dt : DefaultTypeOpt) :
    (storeData ≠ [] →
      createBlocks storeData dt =
        storeData.map (fun b => .blockCreate b.type b.data)) ∧
    (∀ t, createBlocks [] (.typ t) = [.blockCreate t emptyData]) ∧
    (createBlocks [] .disabled = []) ∧
    (storeData ≠ [] →
      (createBlocks storeData dt).length = storeData.length) := by
  refine ⟨?_, fun t => rfl, rfl, ?_⟩
  · intro h
    unfold createBlocks
    rw [if_pos (List.length_pos.mpr h)]
  · intro h
    unfold createBlocks
    rw [if_pos (List.length_pos.mpr h), List.length_map]

/-- C8 witness: a store with one persisted entry yields exactly its
`block:create` event. -/
theorem C8_createBlocks_events_witness :
    createBlocks [⟨"text", "d"⟩] (.typ "video") =
      [.blockCreate "text" "d"] :=
  (C8_createBlocks_events [⟨"text", "d"⟩] (.typ "video")).1 (by decide)

/-- C10: during a validation pass, a `.st-block` DOM element whose id
attribute resolves to no block in the registry is silently skipped — the
pass over the remaining elements is exactly the pass with that element
absent (no validity check, no store record, no error for it). -/
theorem C10_unknown_id_skipped (cfg : Config) (registry : List Block)
    (pre post : List DomNode) (n : DomNode) (sv : Bool) (st : PassState)
    (h : findBlockById registry n.attrId = none) :
    validateBlocks cfg registry (pre ++ n :: post) sv st =
      validateBlocks cfg registry (pre ++ post) sv st := by
  unfold validateBlocks
  rw [List.foldl_append, List.foldl_append, List.foldl_cons, h]

theorem beq_false_of_ne {α : Type} [BEq α] [LawfulBEq α] {a b : α}
    (h : a ≠ b) : (a == b) = false := by
  rcases hbe : a == b with _ | _
  · rfl
  · exact absurd (beq_iff_eq.mp hbe) h

theorem validateAndSaveBlock_skip (cfg : Config)
    (hskip : cfg.skipValidation = true) (st : PassState) (b : Block) :
    validateAndSaveBlock cfg st b false =
      { st with store := st.store ++ [b.getData] } := by
  unfold validateAndSaveBlock
  rw [hskip]
  simp

theorem validateBlocks_skipValidation (cfg : Config)
    (hskip : cfg.skipValidation = true) (registry : List Block)
    (dom : List DomNode) (st : PassState) :
    (validateBlocks cfg registry dom false st).errors = st.errors ∧
    (validateBlocks cfg registry dom false st).log = st.log := by
  induction dom generalizing st with
  | nil => exact ⟨rfl, rfl⟩
  | cons n rest ih =>
    simp only [validateBlocks, List.foldl_cons] at ih ⊢
    cases hfind : findBlockById registry n.attrId with
    | none =>
      simp only [hfind]
      exact ih st
    | some b =>
      simp only [hfind]
      rw [validateAndSaveBlock_skip cfg hskip st b]
      exact ih _

/-- C1 counterexample: with the global `skipValidation` setting off and a
single invalid block, `getData(false)` reports one validation error and
the per-block step emits `errors:add` — refuting the claim that
`getData(false)` reports zero validation errors regardless of the
`skipValidation` setting. -/
theorem C1_counterexample :
    (getData eInvalidOne (JsArg.bool false)).1.errors = 1 ∧
    MEvent.errorsAdd "image invalid" ∈
      (getData eInvalidOne (JsArg.bool false)).2.log := by
  decide

/-- C1 (amended): when the global `skipValidation` setting is true,
`getData(false)` reports zero validation errors and no `errors:add` event
is emitted; when `skipValidation` is false, the per-block validity check
still runs for `getData(false)` and failures are reported. -/
theorem C1_amended_skip_no_errors (e : Editor)
    (hskip : e.cfg.skipValidation = true) :
    (getData e (JsArg.bool false)).1.errors = 0 ∧
    ∀ t, MEvent.errorsAdd t ∉ (getData e (JsArg.bool false)).2.log := by
  have h := validateBlocks_skipValidation e.cfg hskip e.registry e.dom
    ⟨[], [], [.errorsReset]⟩
  constructor
  · show (validateBlocks e.cfg e.registry e.dom false
      ⟨[], [], [.errorsReset]⟩).errors.length = 0
    rw [h.1]
    rfl
  · intro t ht
    have hlog : (getData e (JsArg.bool false)).2.log =
        [MEvent.errorsReset, MEvent.errorsRender] := by
      show (validateBlocks e.cfg e.registry e.dom false
        ⟨[], [], [.errorsReset]⟩).log ++ [MEvent.errorsRender] = _
      rw [h.2]
      rfl
    rw [hlog] at ht
    simp at ht

/-- C1 witness: at a concrete editor with `skipValidation` on and one
invalid block, `getData(false)` reports zero errors and emits no
`errors:add`. -/
theorem C1_amended_skip_no_errors_witness :
    (getData eSkipOne (JsArg.bool false)).1.errors = 0 ∧
    MEvent.errorsAdd "image invalid" ∉
      (getData eSkipOne (JsArg.bool false)).2.log :=
  ⟨(C1_amended_skip_no_errors eSkipOne (by decide)).1,
   (C1_amended_skip_no_errors eSkipOne (by decide)).2 "image invalid"⟩

/-- C4: with validation enabled, a failing block contributes exactly an
`errors:add` event carrying its `validationFailMsg` and leaves the store
untouched, a passing block appends its record to the store with no error,
and a pass over a valid block followed by an invalid one yields one
error, `canSubmit = false`, and a store holding only the valid block's
record. -/
theorem C4_validation_outcomes (cfg : Config) (st : PassState) (b : Block)
    (e : Editor) (b1 b2 : Block)
    (h1 : b1.valid = true) (h2 : b2.valid = false)
    (hid : b1.blockID ≠ b2.blockID)
    (ht1 : b1.btype ∈ e.availableTypes)
    (ht2 : b2.btype ∈ e.availableTypes)
    (hreg : e.registry = [b1, b2])
    (hdom : e.dom = [⟨0, b1.blockID⟩, ⟨1, b2.blockID⟩]) :
    ((b.valid = false →
      validateAndSaveBlock cfg st b true =
        { st with
          errors := st.errors ++ [b.validationFailMsg]
          log := st.log ++ [.errorsAdd b.validationFailMsg] }) ∧
     (b.valid = true →
      validateAndSaveBlock cfg st b true =
        { st with store := st.store ++ [b.getData] })) ∧
    (getData e JsArg.undef).1.errors = 1 ∧
    (getData e JsArg.undef).1.canSubmit = false ∧
    (getData e JsArg.undef).2.store = [b1.getData] := by
  have hb12 := beq_false_of_ne hid
  refine ⟨⟨?_, ?_⟩, ?_, ?_, ?_⟩
  · intro hb
    simp [validateAndSaveBlock, hb]
  · intro hb
    simp [validateAndSaveBlock, hb]
  all_goals
    simp [getData, validateBlocks, findBlockById, validateAndSaveBlock,
      validateBlockTypesExist, hreg, hdom, h1, h2, hb12, ht1, ht2,
      JsArg.toValidate]

/-- C4 witness: the two-block scenario at a concrete editor — one valid
text block and one invalid image block — gives one error, no submission,
and only the valid record in the store. -/
theorem C4_validation_outcomes_witness :
    (getData eTwoBlocks JsArg.undef).1.errors = 1 ∧
    (getData eTwoBlocks JsArg.undef).1.canSubmit = false ∧
    (getData eTwoBlocks JsArg.undef).2.store = [bValid.getData] :=
  (C4_validation_outcomes ⟨false⟩ ⟨[], [], []⟩ bValid eTwoBlocks bValid
    bInvalid (by decide) (by decide) (by decide) (by decide) (by decide)
    (by decide) (by decide)).2

/-- C9 counterexample: after two editors run `_setEvents`, a
`block:reorder:dragend` event published on the process-wide event bus
(for instance by editor 1's components) is delivered to editor 2's
handler as well — refuting the claim that no event published by one
instance's components is ever delivered to a handler of the other
instance. -/
theorem C9_counterexample :
    Handler.mk 2 "removeBlockDragOver" ∈
      deliver twoEditorBus "block:reorder:dragend" ∧
    ¬ ∀ h ∈ deliver twoEditorBus "block:reorder:dragend", h.owner = 1 := by
  decide

/-- C9 (amended): the mediator is created fresh per editor instance, and
every handler a mediator delivers to belongs to that same instance — so
mediator events never cross instances; but the mediator is not the only
shared coordination channel: the three reorder/drag events that
`_setEvents` subscribes on the process-wide event bus are delivered to
the handlers of every live instance, whichever instance published. -/
theorem C9_amended_mediator_isolated (i j : Nat) (ev : String) (h : Handler)
    (hij : i ≠ j) :
    (h ∈ deliver (buildMediatorSubs i) ev → h.owner = i) ∧
    Handler.mk j "removeBlockDragOver" ∈
      deliver (setEvents j (setEvents i [])) "block:reorder:dragend" := by
  constructor
  · intro hmem
    have hall : ∀ s ∈ buildMediatorSubs i, s.2.owner = i := by
      intro s hs
      simp only [buildMediatorSubs, List.mem_cons, List.not_mem_nil,
        or_false] at hs
      rcases hs with h1 | h1 | h1 | h1 <;> (subst h1; rfl)
    rcases List.mem_map.mp hmem with ⟨s, hsf, hs2⟩
    rw [← hs2]
    exact hall s (List.mem_of_mem_filter hsf)
  · show Handler.mk j "removeBlockDragOver" ∈
      [Handler.mk i "removeBlockDragOver", Handler.mk j "removeBlockDragOver"]
    exact List.mem_cons_of_mem _ (List.mem_singleton.mpr rfl)

/-- C9 witness: instantiating the amended theorem at instances 1 and 2 —
instance 2's handler receives the bus event, and a handler delivered by
instance 1's mediator belongs to instance 1. -/
theorem C9_amended_mediator_isolated_witness :
    Handler.mk 2 "removeBlockDragOver" ∈
      deliver (setEvents 2 (setEvents 1 [])) "block:reorder:dragend" :=
  (C9_amended_mediator_isolated 1 2 "block:render" ⟨1, "renderBlock"⟩
    (by decide)).2

/-- C10 witness: a pass over a known block's element plus an element with
an unresolvable id equals the pass over the known element alone. -/
theorem C10_unknown_id_skipped_witness :
    validateBlocks ⟨false⟩ [bValid] ([⟨0, "b1"⟩] ++ ⟨1, "zz"⟩ :: []) true
        ⟨[], [], []⟩ =
      validateBlocks ⟨false⟩ [bValid] ([⟨0, "b1"⟩] ++ []) true ⟨[], [], []⟩ :=
  C10_unknown_id_skipped ⟨false⟩ [bValid] [⟨0, "b1"⟩] [] ⟨1, "zz"⟩ true
    ⟨[], [], []⟩ (by decide)

theorem destroyBlocksLoop_snd (snapshot : List Block) (current : List Block)
    (acc : List TStep) :
    (snapshot.foldl
      (fun acc b =>
        (removeBlockById acc.1 b.blockID, acc.2 ++ [TStep.blockRemove b.blockID]))
      (current, acc)).2
      = acc ++ snapshot.map (fun b => TStep.blockRemove b.blockID) := by
  induction snapshot generalizing current acc with
  | nil => simp
  | cons b rest ih =>
    rw [List.foldl_cons, List.map_cons, ih]
    simp

/-- C6: `destroy()` performs its teardown steps in exactly the specified
order — format bar, floating controls, block controls, one `block:remove`
per live block of the registry collection captured at the call (the
`block:remove` handler's removal replaces the manager's collection, so
the captured iteration can neither skip nor repeat a block), the
`destroy` event, the mediator and instance `stopListening` calls, the
store reset, and the restoration of the original element. -/
theorem C6_destroy_order (registry : List Block) :
    destroy registry =
      [.formatBarDestroy, .flBlockControlsDestroy, .blockControlsDestroy]
        ++ registry.map (fun b => TStep.blockRemove b.blockID)
        ++ [.destroyEvent, .mediatorStopListening, .instanceStopListening,
            .storeReset, .replaceWith] ∧
    ∀ id, (destroy registry).count (TStep.blockRemove id)
        = (registry.map Block.blockID).count id := by
  have hloop : (destroyBlocksLoop registry registry).2
      = registry.map (fun b => TStep.blockRemove b.blockID) := by
    unfold destroyBlocksLoop
    simpa using destroyBlocksLoop_snd registry registry []
  constructor
  · unfold destroy
    rw [hloop]
  · intro id
    unfold destroy
    rw [hloop, List.count_append, List.count_append]
    have hpre : ([TStep.formatBarDestroy, .flBlockControlsDestroy,
        .blockControlsDestroy] : List TStep).count (TStep.blockRemove id)
        = 0 := rfl
    have hsuf : ([TStep.destroyEvent, .mediatorStopListening,
        .instanceStopListening, .storeReset, .replaceWith] : List TStep).count
          (TStep.blockRemove id) = 0 := rfl
    have hinj : Function.Injective TStep.blockRemove := by
      intro a b hab
      injection hab
    have hmap : registry.map (fun b => TStep.blockRemove b.blockID)
        = (registry.map Block.blockID).map TStep.blockRemove := by
      rw [List.map_map]
      rfl
    rw [hpre, hsuf, hmap, List.count_map_of_injective _ _ hinj]
    omega

/-- C7: `changeBlockPosition(block, pos)` leaves the DOM unchanged when
the 0-indexed target slot has no occupant or the occupant's id attribute
is the block's own (in particular when the occupant is the block itself);
otherwise it inserts the block before the occupant when the block's
current index exceeds the target index and after it otherwise; and the
registry's block collection is never touched. -/
theorem C7_changeBlockPosition (e : Editor) (blk : DomNode) (pos : Int) :
    ((if pos - 1 < 0 then none else e.dom.get? (pos - 1).toNat) = none →
      changeBlockPositionE e blk pos = e) ∧
    (∀ t, (if pos - 1 < 0 then none else e.dom.get? (pos - 1).toNat) = some t →
      t.attrId = blk.attrId → changeBlockPositionE e blk pos = e) ∧
    (∀ t, (if pos - 1 < 0 then none else e.dom.get? (pos - 1).toNat) = some t →
      t.attrId ≠ blk.attrId →
      (changeBlockPositionE e blk pos).dom =
        if optIndexGt (getBlockPosition e.dom blk) (pos - 1)
        then insertBeforeNode e.dom blk t
        else insertAfterNode e.dom blk t) ∧
    (changeBlockPositionE e blk pos).registry = e.registry := by
  refine ⟨?_, ?_, ?_, rfl⟩
  · intro h
    simp only [changeBlockPositionE, changeBlockPosition]
    rw [h]
  · intro t h heq
    simp only [changeBlockPositionE, changeBlockPosition]
    rw [h]
    have hbeq : (t.attrId == blk.attrId) = true := beq_iff_eq.mpr heq
    simp only [hbeq, if_true]
  · intro t h hne
    simp only [changeBlockPositionE, changeBlockPosition]
    rw [h]
    have hbeq : (t.attrId == blk.attrId) = false := beq_false_of_ne hne
    simp only [hbeq]
    rfl

/-- C7 witness: at a concrete three-node DOM, moving the middle block to
its own current position leaves the editor unchanged, and moving the last
block to position 1 performs an insert-before. -/
theorem C7_changeBlockPosition_witness :
    changeBlockPositionE eThreeNodes ⟨1, "b"⟩ 2 = eThreeNodes :=
  (C7_changeBlockPosition eThreeNodes ⟨1, "b"⟩ 2).2.1 ⟨1, "b"⟩ (by decide)
    (by decide)

theorem find?_perm_of_unique {α : Type} (p : α → Bool) {l l' : List α}
    (hp : l.Perm l')
    (hu : ∀ a ∈ l, ∀ b ∈ l, p a = true → p b = true → a = b) :
    l.find? p = l'.find? p := by
  cases h : l.find? p with
  | some a =>
    have hpa := List.find?_some h
    have hmem := List.mem_of_find?_eq_some h
    have hmem' := hp.mem_iff.mp hmem
    cases h' : l'.find? p with
    | some b =>
      have hpb := List.find?_some h'
      have hbmem := hp.mem_iff.mpr (List.mem_of_find?_eq_some h')
      rw [hu a hmem b hbmem hpa hpb]
    | none =>
      exact absurd hpa (List.find?_eq_none.mp h' a hmem')
  | none =>
    cases h' : l'.find? p with
    | some b =>
      have hpb := List.find?_some h'
      have hbmem := hp.mem_iff.mpr (List.mem_of_find?_eq_some h')
      exact absurd hpb (List.find?_eq_none.mp h b hbmem)
    | none => rfl

theorem findBlockById_perm {reg reg' : List Block} (hp : reg.Perm reg')
    (hn : (reg.map Block.blockID).Nodup) (id : String) :
    findBlockById reg id = findBlockById reg' id := by
  apply find?_perm_of_unique _ hp
  intro a ha b hb hpa hpb
  exact List.inj_on_of_nodup_map hn ha hb
    (by rw [beq_iff_eq.mp hpa, beq_iff_eq.mp hpb])

theorem validateBlocks_congr (cfg : Config) {reg reg' : List Block}
    (h : ∀ id, findBlockById reg id = findBlockById reg' id)
    (dom : List DomNode) (sv : Bool) (st : PassState) :
    validateBlocks cfg reg dom sv st = validateBlocks cfg reg' dom sv st := by
  unfold validateBlocks
  congr 1
  funext s n
  rw [h]

theorem validateAndSaveBlock_store (cfg : Config) (st : PassState)
    (b : Block) (sv : Bool) :
    (validateAndSaveBlock cfg st b sv).store =
      st.store ++
        (if (!cfg.skipValidation || sv) && !b.valid then []
         else [b.getData]) := by
  unfold validateAndSaveBlock
  split
  · simp
  · rfl

theorem domOrderRecords_cons_none (cfg : Config) (reg : List Block)
    (sv : Bool) (n : DomNode) (rest : List DomNode)
    (hfind : findBlockById reg n.attrId = none) :
    domOrderRecords cfg reg sv (n :: rest) =
      domOrderRecords cfg reg sv rest := by
  unfold domOrderRecords
  rw [List.filterMap_cons]
  simp [hfind]

theorem domOrderRecords_cons_some (cfg : Config) (reg : List Block)
    (sv : Bool) (n : DomNode) (rest : List DomNode) (b : Block)
    (hfind : findBlockById reg n.attrId = some b) :
    domOrderRecords cfg reg sv (n :: rest) =
      (if (!cfg.skipValidation || sv) && !b.valid then [] else [b.getData])
        ++ domOrderRecords cfg reg sv rest := by
  unfold domOrderRecords
  rw [List.filterMap_cons, hfind]
  by_cases hP : ((!cfg.skipValidation || sv) && !b.valid) = true
  · simp only [Option.some_bind, if_pos hP]
    simp
  · simp only [Option.some_bind, if_neg hP]
    simp

theorem validateBlocks_store (cfg : Config) (reg : List Block)
    (dom : List DomNode) (sv : Bool) (st : PassState) :
    (validateBlocks cfg reg dom sv st).store =
      st.store ++ domOrderRecords cfg reg sv dom := by
  induction dom generalizing st with
  | nil => simp [validateBlocks, domOrderRecords]
  | cons n rest ih =>
    have hstep : validateBlocks cfg reg (n :: rest) sv st
        = validateBlocks cfg reg rest sv
            (match findBlockById reg n.attrId with
             | some b => validateAndSaveBlock cfg st b sv
             | none => st) := rfl
    rw [hstep]
    cases hfind : findBlockById reg n.attrId with
    | none =>
      show (validateBlocks cfg reg rest sv st).store
          = st.store ++ domOrderRecords cfg reg sv (n :: rest)
      rw [ih st, domOrderRecords_cons_none cfg reg sv n rest hfind]
    | some b =>
      show (validateBlocks cfg reg rest sv
          (validateAndSaveBlock cfg st b sv)).store
          = st.store ++ domOrderRecords cfg reg sv (n :: rest)
      rw [ih _, validateAndSaveBlock_store,
        domOrderRecords_cons_some cfg reg sv n rest b hfind,
        ← List.append_assoc]

theorem validateBlockTypesExist_store (av : List String) (reg : List Block)
    (sv : Bool) (st : PassState) :
    (validateBlockTypesExist av reg sv st).store = st.store := by
  unfold validateBlockTypesExist
  by_cases hsv : sv = true
  · rw [if_pos hsv]
    induction reg generalizing st with
    | nil => rfl
    | cons b rest ih =>
      rw [List.foldl_cons]
      by_cases h : av.contains b.btype = true
      · rw [if_pos h]
        exact ih st
      · rw [if_neg h]
        exact ih _
  · rw [if_neg hsv]

theorem validateBlockTypesExist_errors_len (av : List String)
    (reg : List Block) (sv : Bool) (st : PassState) :
    (validateBlockTypesExist av reg sv st).errors.length =
      st.errors.length +
        (if sv then reg.countP (fun b => !(av.contains b.btype)) else 0) := by
  unfold validateBlockTypesExist
  by_cases hsv : sv = true
  · rw [if_pos hsv, if_pos hsv]
    induction reg generalizing st with
    | nil => simp
    | cons b rest ih =>
      rw [List.foldl_cons, List.countP_cons]
      by_cases h : av.contains b.btype = true
      · have hnb : (!(av.contains b.btype)) = false := by rw [h]; rfl
        rw [if_pos h, ih st, hnb]
        simp
      · have hb : av.contains b.btype = false := by
          rcases hc : av.contains b.btype with _ | _
          · rfl
          · exact absurd hc h
        have hnb : (!(av.contains b.btype)) = true := by rw [hb]; rfl
        rw [if_neg h, ih _, hnb]
        simp
        omega
  · rw [if_neg hsv, if_neg hsv]
    simp

theorem validateAndSaveBlock_log (cfg : Config) (st : PassState) (b : Block)
    (sv : Bool) :
    ∃ c, (validateAndSaveBlock cfg st b sv).log = st.log ++ c := by
  unfold validateAndSaveBlock
  split
  · exact ⟨_, rfl⟩
  · exact ⟨[], by simp⟩

theorem validateBlocks_log_extends (cfg : Config) (reg : List Block)
    (dom : List DomNode) (sv : Bool) (st : PassState) :
    ∃ tl, (validateBlocks cfg reg dom sv st).log = st.log ++ tl := by
  induction dom generalizing st with
  | nil => exact ⟨[], by simp [validateBlocks]⟩
  | cons n rest ih =>
    have hstep : validateBlocks cfg reg (n :: rest) sv st
        = validateBlocks cfg reg rest sv
            (match findBlockById reg n.attrId with
             | some b => validateAndSaveBlock cfg st b sv
             | none => st) := rfl
    rw [hstep]
    cases hfind : findBlockById reg n.attrId with
    | none =>
      exact ih st
    | some b =>
      obtain ⟨tl, htl⟩ := ih (validateAndSaveBlock cfg st b sv)
      obtain ⟨c, hc⟩ := validateAndSaveBlock_log cfg st b sv
      exact ⟨c ++ tl, by
        show (validateBlocks cfg reg rest sv
          (validateAndSaveBlock cfg st b sv)).log = _
        rw [htl, hc, List.append_assoc]⟩

theorem validateBlockTypesExist_log_extends (av : List String)
    (reg : List Block) (sv : Bool) (st : PassState) :
    ∃ tl, (validateBlockTypesExist av reg sv st).log = st.log ++ tl := by
  unfold validateBlockTypesExist
  by_cases hsv : sv = true
  · rw [if_pos hsv]
    induction reg generalizing st with
    | nil => exact ⟨[], by simp⟩
    | cons b rest ih =>
      rw [List.foldl_cons]
      by_cases h : av.contains b.btype = true
      · rw [if_pos h]
        exact ih st
      · rw [if_neg h]
        obtain ⟨tl, htl⟩ := ih _
        exact ⟨[.errorsAdd (typeMissingMsg b.btype)] ++ tl,
          by rw [htl]; simp⟩
  · rw [if_neg hsv]
    exact ⟨[], by simp⟩

theorem getData_log_head (e : Editor) (arg : JsArg) :
    (getData e arg).2.log.head? = some MEvent.errorsReset := by
  obtain ⟨t1, h1⟩ := validateBlocks_log_extends e.cfg e.registry e.dom
    arg.toValidate ⟨[], [], [.errorsReset]⟩
  obtain ⟨t2, h2⟩ := validateBlockTypesExist_log_extends e.availableTypes
    e.registry arg.toValidate
    (validateBlocks e.cfg e.registry e.dom arg.toValidate
      ⟨[], [], [.errorsReset]⟩)
  show ((validateBlockTypesExist e.availableTypes e.registry arg.toValidate
    (validateBlocks e.cfg e.registry e.dom arg.toValidate
      ⟨[], [], [.errorsReset]⟩)).log ++ [MEvent.errorsRender]).head? = _
  rw [h2, h1]
  rfl

/-- C5: every `getData` call resets errors and store before any block's
validity check runs — its outcome is independent of the prior pass state,
the first event it emits is `errors:reset`, and its final store is
exactly the records of the wrapper's blocks in DOM child order; moreover
permuting the registry's collection (insertion order) changes neither the
result nor the final store when block ids are unique. -/
theorem C5_reset_first_and_dom_order (e : Editor) (arg : JsArg)
    (st' : PassState) (reg' : List Block)
    (hp : e.registry.Perm reg')
    (hn : (e.registry.map Block.blockID).Nodup) :
    getData { e with state := st' } arg = getData e arg ∧
    (getData e arg).2.log.head? = some MEvent.errorsReset ∧
    (getData e arg).2.store =
      domOrderRecords e.cfg e.registry arg.toValidate e.dom ∧
    (getData { e with registry := reg' } arg).1 = (getData e arg).1 ∧
    (getData { e with registry := reg' } arg).2.store =
      (getData e arg).2.store := by
  have hfind : ∀ id, findBlockById e.registry id = findBlockById reg' id :=
    fun id => findBlockById_perm hp hn id
  have hvb : validateBlocks e.cfg reg' e.dom arg.toValidate
        ⟨[], [], [.errorsReset]⟩
      = validateBlocks e.cfg e.registry e.dom arg.toValidate
        ⟨[], [], [.errorsReset]⟩ :=
    (validateBlocks_congr e.cfg hfind e.dom arg.toValidate _).symm
  have hstore : (getData { e with registry := reg' } arg).2.store =
      (getData e arg).2.store := by
    show (validateBlockTypesExist e.availableTypes reg' arg.toValidate
        (validateBlocks e.cfg reg' e.dom arg.toValidate
          ⟨[], [], [.errorsReset]⟩)).store =
      (validateBlockTypesExist e.availableTypes e.registry arg.toValidate
        (validateBlocks e.cfg e.registry e.dom arg.toValidate
          ⟨[], [], [.errorsReset]⟩)).store
    rw [validateBlockTypesExist_store, validateBlockTypesExist_store, hvb]
  have herrlen : (validateBlockTypesExist e.availableTypes reg'
        arg.toValidate (validateBlocks e.cfg reg' e.dom arg.toValidate
          ⟨[], [], [.errorsReset]⟩)).errors.length
      = (validateBlockTypesExist e.availableTypes e.registry arg.toValidate
        (validateBlocks e.cfg e.registry e.dom arg.toValidate
          ⟨[], [], [.errorsReset]⟩)).errors.length := by
    rw [validateBlockTypesExist_errors_len, validateBlockTypesExist_errors_len,
      hvb, ← hp.countP_eq]
  refine ⟨rfl, getData_log_head e arg, ?_, ?_, hstore⟩
  · show (validateBlockTypesExist e.availableTypes e.registry arg.toValidate
      (validateBlocks e.cfg e.registry e.dom arg.toValidate
        ⟨[], [], [.errorsReset]⟩)).store = _
    rw [validateBlockTypesExist_store, validateBlocks_store]
    rfl
  · have hd2 : (getData { e with registry := reg' } arg).1.data =
        (getData e arg).1.data := congrArg storeToString hstore
    have herr2 : (getData { e with registry := reg' } arg).1.errors =
        (getData e arg).1.errors := herrlen
    have hcs2 : (getData { e with registry := reg' } arg).1.canSubmit =
        (getData e arg).1.canSubmit := by
      show ((validateBlockTypesExist e.availableTypes reg' arg.toValidate
          (validateBlocks e.cfg reg' e.dom arg.toValidate
            ⟨[], [], [.errorsReset]⟩)).errors.length == 0
        && ((getBlockQueuedItems e).length == 0))
        = ((validateBlockTypesExist e.availableTypes e.registry
            arg.toValidate (validateBlocks e.cfg e.registry e.dom
              arg.toValidate ⟨[], [], [.errorsReset]⟩)).errors.length == 0
        && ((getBlockQueuedItems e).length == 0))
      rw [herrlen]
    calc (getData { e with registry := reg' } arg).1
        = ⟨(getData e arg).1.data, (getData e arg).1.errors,
           (getData e arg).1.canSubmit⟩ := by
          rw [← hd2, ← herr2, ← hcs2]
      _ = (getData e arg).1 := rfl

/-- C5 witness: at a concrete two-block editor, the result is unchanged by
stale prior error/store state and by permuting the registry collection. -/
theorem C5_reset_first_and_dom_order_witness :
    getData { eTwoBlocks with state := ⟨["stale"], [⟨"t", "d"⟩], []⟩ }
        JsArg.undef = getData eTwoBlocks JsArg.undef ∧
    (getData { eTwoBlocks with registry := [bInvalid, bValid] }
        JsArg.undef).1 = (getData eTwoBlocks JsArg.undef).1 :=
  ⟨(C5_reset_first_and_dom_order eTwoBlocks JsArg.undef
      ⟨["stale"], [⟨"t", "d"⟩], []⟩ [bInvalid, bValid] (by decide)
      (by decide)).1,
   (C5_reset_first_and_dom_order eTwoBlocks JsArg.undef
      ⟨["stale"], [⟨"t", "d"⟩], []⟩ [bInvalid, bValid] (by decide)
      (by decide)).2.2.2.1⟩

end SirTrevor
